import Mathlib

/-!
Verification of the XMOS USB Device (XUD) layer interface, as described by
`src/module_xud/include/xud.h`.

The header is the public contract of the engine.  The only executable code in
the repository snapshot is the inline buffer-arming helpers
(`XUD_SetReady_In`, `XUD_SetReady_InPtr`, ...) and the numeric constants; the
remaining operations are declared in the header and implemented in
`XUD_EpFunctions.xc` / `XUD_EpFuncs.S`, which are not part of the snapshot.
Those operations are modelled from the specification, each with a doc comment
saying so.
-/

namespace XUD

/-! ### Numeric constants from `xud.h` -/

/-- `#define XUD_SPEED_FS 1` (xud.h line 34). -/
def XUD_SPEED_FS : Nat := 1

/-- `#define XUD_SPEED_HS 2` (xud.h line 35). -/
def XUD_SPEED_HS : Nat := 2

/-- `#define XUD_SUSPEND 3` (xud.h line 37). -/
def XUD_SUSPEND : Nat := 3

/-- `#define USB_RESET_TOKEN 8` (xud.h line 40): control token value signalling RESET. -/
def USB_RESET_TOKEN : Nat := 8

/-- `#define USB_SUSPEND_TOKEN 9` (xud.h line 41): control token value signalling SUSPEND. -/
def USB_SUSPEND_TOKEN : Nat := 9

/-! ### 32-bit machine arithmetic

The XMOS XS1 target is a 32-bit machine; the inline assembly in the header
manipulates 32-bit words.  We embed words as natural numbers reduced mod
`2^32`, with helpers for the instructions the inline assembly uses. -/

/-- Truncation of a natural number to a 32-bit word. -/
def w32 (x : Nat) : Nat := x % 2 ^ 32

/-- The XS1 `neg` instruction: two's-complement negation of a 32-bit word. -/
def neg32 (x : Nat) : Nat := (2 ^ 32 - x % 2 ^ 32) % 2 ^ 32

/-- The XC `zext(x, w)` builtin: zero out all bits of `x` from bit `w` upward. -/
def zext (x w : Nat) : Nat := x % 2 ^ w

/-- Signed reading of a 32-bit word (two's complement). -/
def toSigned32 (x : Nat) : Int :=
  if x % 2 ^ 32 < 2 ^ 31 then ((x % 2 ^ 32 : Nat) : Int)
  else ((x % 2 ^ 32 : Nat) : Int) - 2 ^ 32

/-! ### The buffer-arming stores of `XUD_SetReady_In` / `XUD_SetReady_InPtr` -/

/-- The words an IN-direction buffer-arming call stores into the endpoint
structure: the negative word index at offset 6, the (end-of-buffer) pointer at
offset 3, the tail length at offset 7, and the endpoint word written to the
channel-array slot to mark the endpoint ready. -/
structure InReadyStores where
  negIndex : Nat
  bufferPtr : Nat
  tailLength : Nat
  readyMark : Nat
deriving DecidableEq, Repr

/-- The store sequence of an arming call, in program order, as
(endpoint-structure offset, stored word) pairs; the final pair is the
mark-ready store through the channel-array pointer (offset 0 of that array). -/
def storeSeq (s : InReadyStores) : List (Nat × Nat) :=
  [(6, s.negIndex), (3, s.bufferPtr), (7, s.tailLength), (0, s.readyMark)]

/-- Embedding of `XUD_SetReady_In` (xud.h lines 332-364).  `bufferPtr` is the
address of the caller's buffer and `len` the byte length, both nonnegative
32-bit quantities.  The body computes `wordlength = (len >> 2) << 2`,
`taillength = zext(len << 5, 7)`, the end-of-buffer address
`tmp = bufferPtr + wordlength`, the negated word count `tmp2 = -(len >> 2)`,
and stores them at offsets 6, 3 and 7 before marking the endpoint ready. -/
def XUD_SetReady_In (e bufferPtr len : Nat) : InReadyStores :=
  let wordlength := w32 ((len >>> 2) <<< 2)
  let taillength := zext (w32 (len <<< 5)) 7
  let tmp := w32 (bufferPtr + wordlength)
  let tmp2 := neg32 (len >>> 2)
  { negIndex := tmp2, bufferPtr := tmp, tailLength := taillength, readyMark := w32 e }

/-- Embedding of `XUD_SetReady_InPtr` (xud.h lines 369-400).  Identical body to
`XUD_SetReady_In` except that the buffer is passed as a raw address `addr`. -/
def XUD_SetReady_InPtr (ep addr len : Nat) : InReadyStores :=
  let wordlength := w32 ((len >>> 2) <<< 2)
  let taillength := zext (w32 (len <<< 5)) 7
  let tmp := w32 (addr + wordlength)
  let tmp2 := neg32 (len >>> 2)
  { negIndex := tmp2, bufferPtr := tmp, tailLength := taillength, readyMark := w32 ep }

end XUD

namespace XUD

/-! ### Claim theorems about the code present in the header -/

/-- C8: the encoded control-token values are exactly 8 for RESET and 9 for
SUSPEND, and the two values are distinct, so a worker can tell the two bus
events apart from the received value alone. -/
theorem USB_control_token_values :
    USB_RESET_TOKEN = 8 ∧ USB_SUSPEND_TOKEN = 9 ∧ USB_RESET_TOKEN ≠ USB_SUSPEND_TOKEN := by
  refine ⟨rfl, rfl, ?_⟩
  decide

/-- C7: for every base pointer and length (fitting the 32-bit address space),
`XUD_SetReady_In` publishes a descriptor holding the negative word index
`-(len / 4)`, the buffer pointer advanced to `base + 4 * (len / 4)`, and the
tail length `(len * 32) % 128` (which encodes `len % 4`), so the original byte
count is recoverable from the stored fields. -/
theorem XUD_SetReady_In_encoding (e base len : Nat)
    (hfit : base + len < 2 ^ 32) :
    toSigned32 (XUD_SetReady_In e base len).negIndex = -((len / 4 : Nat) : Int)
    ∧ (XUD_SetReady_In e base len).bufferPtr = base + 4 * (len / 4)
    ∧ (XUD_SetReady_In e base len).tailLength = (len * 32) % 128
    ∧ (XUD_SetReady_In e base len).tailLength = 32 * (len % 4)
    ∧ 4 * (len / 4) + (XUD_SetReady_In e base len).tailLength / 32 = len := by
  have hlen : len < 2 ^ 32 := by omega
  have hdiv : len >>> 2 = len / 4 := by
    simp [Nat.shiftRight_eq_div_pow]
  have hword : (len >>> 2) <<< 2 = len / 4 * 4 := by
    simp [hdiv, Nat.shiftLeft_eq]
  have hword_lt : len / 4 * 4 < 2 ^ 32 := by
    have := Nat.div_mul_le_self len 4
    omega
  have hq_lt : len / 4 < 2 ^ 30 := by
    have : len / 4 < 2 ^ 32 / 4 + 1 := by
      have := Nat.div_le_div_right (c := 4) (Nat.le_of_lt hlen)
      omega
    omega
  refine ⟨?_, ?_, ?_, ?_, ?_⟩
  · -- the stored negative index reads back as -(len / 4)
    show toSigned32 (neg32 (len >>> 2)) = -((len / 4 : Nat) : Int)
    rw [hdiv]
    unfold neg32 toSigned32
    split <;> omega
  · -- the stored pointer is the base advanced past the whole words
    show w32 (base + w32 ((len >>> 2) <<< 2)) = base + 4 * (len / 4)
    rw [hword]
    unfold w32
    rw [Nat.mod_eq_of_lt hword_lt]
    rw [Nat.mod_eq_of_lt (by have := Nat.div_mul_le_self len 4; omega)]
    omega
  · -- the tail length is (len * 32) mod 128
    show zext (w32 (len <<< 5)) 7 = (len * 32) % 128
    unfold zext w32
    rw [Nat.shiftLeft_eq]
    have h128 : (128 : Nat) ∣ 2 ^ 32 := ⟨2 ^ 25, by norm_num⟩
    calc (len * 2 ^ 5) % 2 ^ 32 % 2 ^ 7
        = (len * 2 ^ 5) % 2 ^ 7 := Nat.mod_mod_of_dvd _ (by norm_num)
      _ = (len * 32) % 128 := by norm_num
  · -- the tail length encodes len mod 4
    show zext (w32 (len <<< 5)) 7 = 32 * (len % 4)
    unfold zext w32
    rw [Nat.shiftLeft_eq]
    have : (len * 2 ^ 5) % 2 ^ 32 % 2 ^ 7 = (len * 2 ^ 5) % 2 ^ 7 :=
      Nat.mod_mod_of_dvd _ (by norm_num)
    rw [this]
    omega
  · -- the byte count is recoverable from the stored fields
    show 4 * (len / 4) + zext (w32 (len <<< 5)) 7 / 32 = len
    unfold zext w32
    rw [Nat.shiftLeft_eq]
    have : (len * 2 ^ 5) % 2 ^ 32 % 2 ^ 7 = (len * 2 ^ 5) % 2 ^ 7 :=
      Nat.mod_mod_of_dvd _ (by norm_num)
    rw [this]
    omega

/-- Witness for C7 at `e = 5`, `base = 1000`, `len = 10`. -/
theorem XUD_SetReady_In_encoding_witness :
    toSigned32 (XUD_SetReady_In 5 1000 10).negIndex = -((10 / 4 : Nat) : Int)
    ∧ (XUD_SetReady_In 5 1000 10).bufferPtr = 1000 + 4 * (10 / 4)
    ∧ (XUD_SetReady_In 5 1000 10).tailLength = (10 * 32) % 128
    ∧ (XUD_SetReady_In 5 1000 10).tailLength = 32 * (10 % 4)
    ∧ 4 * (10 / 4) + (XUD_SetReady_In 5 1000 10).tailLength / 32 = 10 :=
  XUD_SetReady_In_encoding 5 1000 10 (by norm_num)

/-- C10: for every endpoint word, address and length, `XUD_SetReady_InPtr`
computes the same words and performs the same sequence of stores as
`XUD_SetReady_In` on the same address and length. -/
theorem XUD_SetReady_InPtr_eq_In (ep addr len : Nat) :
    XUD_SetReady_InPtr ep addr len = XUD_SetReady_In ep addr len
    ∧ storeSeq (XUD_SetReady_InPtr ep addr len) = storeSeq (XUD_SetReady_In ep addr len) :=
  ⟨rfl, rfl⟩

end XUD

namespace XUD

/-! ### The chunked setter `XUD_SetBuffer_EpMax` -/

/-- Modelled from the spec: `XUD_SetBuffer_EpMax` (declared at xud.h lines
181-192) is implemented in `XUD_EpFunctions.xc`, which is not part of this
repository snapshot.  Following the spec, the chunked setter splits the
`datalength` bytes into packets of at most `epMax` bytes: full-size packets
while more than one packet of data remains, then the final packet, followed by
one zero-length packet when the data is a positive exact multiple of the
packet size (the USB short-packet termination rule).  The value is the list of
packet lengths, one `XUD_SetData` issue per element, in order. -/
def XUD_SetBuffer_EpMax (datalength epMax : Nat) : List Nat :=
  if _hm : epMax = 0 then []
  else if _h0 : datalength = 0 then []
  else if _hlt : datalength < epMax then [datalength]
  else if _heq : datalength = epMax then [epMax, 0]
  else epMax :: XUD_SetBuffer_EpMax (datalength - epMax) epMax
termination_by datalength
decreasing_by omega

/-- Unfolding equation for `XUD_SetBuffer_EpMax` in the recursive case. -/
theorem XUD_SetBuffer_EpMax_step (l m : Nat) (hm : m ≠ 0) (hgt : m < l) :
    XUD_SetBuffer_EpMax l m = m :: XUD_SetBuffer_EpMax (l - m) m := by
  rw [XUD_SetBuffer_EpMax]
  simp only [hm, dite_false]
  rw [dif_neg (by omega), dif_neg (by omega), dif_neg (by omega)]

/-- The packets of the chunked setter sum to the data length. -/
theorem XUD_SetBuffer_EpMax_sum (l m : Nat) (hm : 0 < m) :
    (XUD_SetBuffer_EpMax l m).sum = l := by
  induction l using Nat.strong_induction_on with
  | _ l ih =>
    rcases Nat.lt_trichotomy l m with hlt | heq | hgt
    · rcases Nat.eq_zero_or_pos l with h0 | h0
      · rw [XUD_SetBuffer_EpMax, dif_neg (by omega), dif_pos h0]
        simp [h0]
      · rw [XUD_SetBuffer_EpMax, dif_neg (by omega), dif_neg (by omega), dif_pos hlt]
        simp
    · rw [XUD_SetBuffer_EpMax, dif_neg (by omega), dif_neg (by omega),
        dif_neg (by omega), dif_pos heq]
      simp [heq]
    · rw [XUD_SetBuffer_EpMax_step l m (by omega) hgt]
      rw [List.sum_cons, ih (l - m) (by omega)]
      omega

/-- Every packet of the chunked setter is at most `epMax` bytes. -/
theorem XUD_SetBuffer_EpMax_le (l m : Nat) :
    ∀ p ∈ XUD_SetBuffer_EpMax l m, p ≤ m := by
  induction l using Nat.strong_induction_on with
  | _ l ih =>
    intro p hp
    rcases Nat.eq_zero_or_pos m with hm | hm
    · rw [XUD_SetBuffer_EpMax, dif_pos hm] at hp
      simp at hp
    rcases Nat.lt_trichotomy l m with hlt | heq | hgt
    · rcases Nat.eq_zero_or_pos l with h0 | h0
      · rw [XUD_SetBuffer_EpMax, dif_neg (by omega), dif_pos h0] at hp
        simp at hp
      · rw [XUD_SetBuffer_EpMax, dif_neg (by omega), dif_neg (by omega),
          dif_pos hlt] at hp
        simp at hp
        omega
    · rw [XUD_SetBuffer_EpMax, dif_neg (by omega), dif_neg (by omega),
        dif_neg (by omega), dif_pos heq] at hp
      simp at hp
      omega
    · rw [XUD_SetBuffer_EpMax_step l m (by omega) hgt] at hp
      simp at hp
      rcases hp with hp | hp
      · omega
      · exact ih (l - m) (by omega) p hp

/-- The number of packets emitted by the chunked setter: the ceiling of
`l / m`, plus one for the terminating zero-length packet exactly when `l` is a
positive multiple of `m`. -/
theorem XUD_SetBuffer_EpMax_length (l m : Nat) (hm : 0 < m) :
    (XUD_SetBuffer_EpMax l m).length
      = (l + m - 1) / m + (if 0 < l ∧ l % m = 0 then 1 else 0) := by
  induction l using Nat.strong_induction_on with
  | _ l ih =>
    rcases Nat.lt_trichotomy l m with hlt | heq | hgt
    · rcases Nat.eq_zero_or_pos l with h0 | h0
      · subst h0
        rw [XUD_SetBuffer_EpMax, dif_neg (by omega), dif_pos rfl]
        rw [if_neg (by omega)]
        have hdiv0 : (m - 1) / m = 0 := Nat.div_eq_of_lt (by omega)
        simp [hdiv0]
      · rw [XUD_SetBuffer_EpMax, dif_neg (by omega), dif_neg (by omega), dif_pos hlt]
        have hmod : l % m = l := Nat.mod_eq_of_lt hlt
        rw [if_neg (by omega)]
        have hceil : (l + m - 1) / m = 1 := Nat.div_eq_of_lt_le (by omega) (by omega)
        simp [hceil]
    · rw [XUD_SetBuffer_EpMax, dif_neg (by omega), dif_neg (by omega),
        dif_neg (by omega), dif_pos heq]
      subst heq
      rw [if_pos ⟨by omega, Nat.mod_self l⟩]
      have hceil : (l + l - 1) / l = 1 := Nat.div_eq_of_lt_le (by omega) (by omega)
      simp [hceil]
    · rw [XUD_SetBuffer_EpMax_step l m (by omega) hgt]
      rw [List.length_cons, ih (l - m) (by omega)]
      have hmod : l % m = (l - m) % m := by
        conv_lhs => rw [show l = l - m + m by omega]
        rw [Nat.add_mod_right]
      have hceil : (l + m - 1) / m = (l - m + m - 1) / m + 1 := by
        have : l + m - 1 = (l - m + m - 1) + m := by omega
        rw [this, Nat.add_div_right _ hm]
      rw [hceil, hmod]
      split_ifs <;> omega

/-- The chunked setter emits a zero-length packet exactly when the data length
is a positive multiple of the packet size, and then exactly one. -/
theorem XUD_SetBuffer_EpMax_count_zero (l m : Nat) (hm : 0 < m) :
    (XUD_SetBuffer_EpMax l m).count 0
      = (if 0 < l ∧ l % m = 0 then 1 else 0) := by
  induction l using Nat.strong_induction_on with
  | _ l ih =>
    rcases Nat.lt_trichotomy l m with hlt | heq | hgt
    · rcases Nat.eq_zero_or_pos l with h0 | h0
      · rw [XUD_SetBuffer_EpMax, dif_neg (by omega), dif_pos h0]
        simp [h0]
      · rw [XUD_SetBuffer_EpMax, dif_neg (by omega), dif_neg (by omega), dif_pos hlt]
        have hmod : l % m = l := Nat.mod_eq_of_lt hlt
        rw [if_neg (by omega)]
        simp [List.count_cons]
        omega
    · rw [XUD_SetBuffer_EpMax, dif_neg (by omega), dif_neg (by omega),
        dif_neg (by omega), dif_pos heq]
      subst heq
      rw [if_pos ⟨by omega, Nat.mod_self l⟩]
      simp [List.count_cons]
      omega
    · rw [XUD_SetBuffer_EpMax_step l m (by omega) hgt]
      rw [List.count_cons, ih (l - m) (by omega)]
      have hmod : l % m = (l - m) % m := by
        conv_lhs => rw [show l = l - m + m by omega]
        rw [Nat.add_mod_right]
      rw [hmod]
      have hbeq : (m == (0 : Nat)) = false := beq_eq_false_iff_ne.mpr (by omega)
      simp only [hbeq, Bool.false_eq_true, if_false, add_zero]
      split_ifs <;> omega

end XUD

namespace XUD

/-- C1: for every length and positive packet size, the chunked setter
`XUD_SetBuffer_EpMax` emits `ceil(length / maxPacketSize)` packets of at most
`maxPacketSize` bytes, plus exactly one extra zero-length packet iff the
length is a positive exact multiple of the packet size. -/
theorem XUD_SetBuffer_EpMax_chunking (l m : Nat) (hm : 0 < m) :
    (XUD_SetBuffer_EpMax l m).length
      = (l + m - 1) / m + (if 0 < l ∧ l % m = 0 then 1 else 0)
    ∧ (∀ p ∈ XUD_SetBuffer_EpMax l m, p ≤ m)
    ∧ (XUD_SetBuffer_EpMax l m).count 0
      = (if 0 < l ∧ l % m = 0 then 1 else 0)
    ∧ (XUD_SetBuffer_EpMax l m).sum = l :=
  ⟨XUD_SetBuffer_EpMax_length l m hm, XUD_SetBuffer_EpMax_le l m,
    XUD_SetBuffer_EpMax_count_zero l m hm, XUD_SetBuffer_EpMax_sum l m hm⟩

/-- Witness for C1 at `length = 128`, `maxPacketSize = 64` (the spec's
end-to-end scenario: two full packets plus a terminating zero-length one). -/
theorem XUD_SetBuffer_EpMax_chunking_witness :
    (XUD_SetBuffer_EpMax 128 64).length
      = (128 + 64 - 1) / 64 + (if 0 < 128 ∧ 128 % 64 = 0 then 1 else 0)
    ∧ (∀ p ∈ XUD_SetBuffer_EpMax 128 64, p ≤ 64)
    ∧ (XUD_SetBuffer_EpMax 128 64).count 0
      = (if 0 < 128 ∧ 128 % 64 = 0 then 1 else 0)
    ∧ (XUD_SetBuffer_EpMax 128 64).sum = 128 :=
  XUD_SetBuffer_EpMax_chunking 128 64 (by norm_num)

end XUD

namespace XUD

/-! ### The control-transfer helper `XUD_DoGetRequest` -/

/-- The observable transfer performed by a Get-request helper call: the data
packets put on the IN endpoint, in order, and the byte count of the status
stage `get` issued on the OUT endpoint afterwards. -/
structure GetRequestTrace where
  dataPackets : List Nat
  statusOutBytes : Nat
deriving DecidableEq, Repr

/-- Modelled from the spec: `XUD_DoGetRequest` (declared at xud.h lines
195-210) is implemented in `XUD_EpFunctions.xc`, which is not part of this
repository snapshot.  Following the spec, it sends `min(length, requested)`
bytes through the chunked setter with the packet size fixed at 64 bytes (the
Full-Speed control maximum), then performs the status stage by issuing a
zero-byte `get` on the OUT endpoint. -/
def XUD_DoGetRequest (length requested : Nat) : GetRequestTrace :=
  { dataPackets := XUD_SetBuffer_EpMax (min length requested) 64
  , statusOutBytes := 0 }

/-- C2: for every `length` and `requested`, `XUD_DoGetRequest` transmits
exactly `min(length, requested)` bytes, regardless of which operand is larger,
chunked at a fixed 64-byte packet size, and then performs the status stage by
a zero-byte `get` on the OUT endpoint. -/
theorem XUD_DoGetRequest_clamping (length requested : Nat) :
    (XUD_DoGetRequest length requested).dataPackets.sum = min length requested
    ∧ (∀ p ∈ (XUD_DoGetRequest length requested).dataPackets, p ≤ 64)
    ∧ (XUD_DoGetRequest length requested).dataPackets
        = XUD_SetBuffer_EpMax (min length requested) 64
    ∧ (XUD_DoGetRequest length requested).statusOutBytes = 0 :=
  ⟨XUD_SetBuffer_EpMax_sum (min length requested) 64 (by norm_num),
    XUD_SetBuffer_EpMax_le (min length requested) 64, rfl, rfl⟩

end XUD

namespace XUD

/-! ### Toggle-bit bookkeeping of `XUD_SetData` -/

/-- Modelled from the spec: `XUD_SetData` (declared at xud.h lines 68-77) is
implemented in `XUD_EpFuncs.S`, which is not part of this repository
snapshot.  The header documents `pidToggle`: normal usage is 0, causing XUD to
toggle the packet ID normally; anything other than 0 is used as the packet
ID.  The value is the pair of the packet ID put on the bus for this
transaction and the endpoint toggle bit stored afterwards: with 0 the current
toggle is emitted and then flipped; with a non-zero override that exact value
is emitted once and the stored toggle is untouched, so normal alternation
resumes from where it left off. -/
def XUD_SetData_pid (toggle pidToggle : Nat) : Nat × Nat :=
  if pidToggle = 0 then (toggle, 1 - toggle) else (pidToggle, toggle)

/-- The packet IDs emitted by a sequence of `XUD_SetData` calls with the given
`pidToggle` arguments, starting from the given endpoint toggle bit, together
with the final toggle bit. -/
def XUD_SetData_run (toggle : Nat) : List Nat → List Nat × Nat
  | [] => ([], toggle)
  | p :: ps =>
      let s := XUD_SetData_pid toggle p
      let r := XUD_SetData_run s.2 ps
      (s.1 :: r.1, r.2)

/-- A run of normal (`pidToggle = 0`) transactions emits alternating packet
IDs starting at the current toggle bit. -/
theorem XUD_SetData_run_replicate (n : Nat) :
    ∀ t, t ≤ 1 →
      (XUD_SetData_run t (List.replicate n 0)).1
        = (List.range n).map (fun i => (t + i) % 2) := by
  induction n with
  | zero => intro t _; simp [XUD_SetData_run]
  | succ n ih =>
    intro t ht
    rw [List.replicate_succ]
    show ((XUD_SetData_pid t 0).1 ::
        (XUD_SetData_run (XUD_SetData_pid t 0).2 (List.replicate n 0)).1)
      = (List.range (n + 1)).map (fun i => (t + i) % 2)
    rw [List.range_succ_eq_map, List.map_cons, List.map_map]
    have hpid : XUD_SetData_pid t 0 = (t, 1 - t) := by
      simp [XUD_SetData_pid]
    rw [hpid]
    have h1 : (XUD_SetData_run (1 - t) (List.replicate n 0)).1
        = (List.range n).map (fun i => (1 - t + i) % 2) := ih (1 - t) (by omega)
    rw [h1]
    have h2 : (fun i => (1 - t + i) % 2)
        = (fun i => (t + i) % 2) ∘ Nat.succ := by
      funext i
      show (1 - t + i) % 2 = (t + (i + 1)) % 2
      omega
    rw [h2]
    have h3 : t % 2 = t := Nat.mod_eq_of_lt (by omega)
    show t :: _ = (t + 0) % 2 :: _
    rw [Nat.add_zero, h3]

/-- C3: on a non-stalled, non-reset endpoint, normal (`pidToggle = 0`)
transactions emit alternating packet IDs 0,1,0,1,...; a non-zero `pidToggle`
is emitted exactly once as the packet ID, leaves the stored toggle unchanged,
and normal alternation resumes afterwards exactly as it would have without the
override. -/
theorem XUD_SetData_toggle_law (t o n : Nat) (ht : t ≤ 1) (ho : o ≠ 0) :
    (XUD_SetData_run t (List.replicate n 0)).1
      = (List.range n).map (fun i => (t + i) % 2)
    ∧ XUD_SetData_pid t 0 = (t, 1 - t)
    ∧ XUD_SetData_pid t o = (o, t)
    ∧ (XUD_SetData_run t (o :: List.replicate n 0)).1
      = o :: (List.range n).map (fun i => (t + i) % 2) := by
  refine ⟨XUD_SetData_run_replicate n t ht, by simp [XUD_SetData_pid], ?_, ?_⟩
  · simp [XUD_SetData_pid, ho]
  · show ((XUD_SetData_pid t o).1 ::
        (XUD_SetData_run (XUD_SetData_pid t o).2 (List.replicate n 0)).1)
      = o :: (List.range n).map (fun i => (t + i) % 2)
    have hpid : XUD_SetData_pid t o = (o, t) := by
      simp [XUD_SetData_pid, ho]
    rw [hpid]
    rw [XUD_SetData_run_replicate n t ht]

/-- Witness for C3 at toggle 0, override 3, three following normal
transactions. -/
theorem XUD_SetData_toggle_law_witness :
    (XUD_SetData_run 0 (List.replicate 3 0)).1
      = (List.range 3).map (fun i => (0 + i) % 2)
    ∧ XUD_SetData_pid 0 0 = (0, 1 - 0)
    ∧ XUD_SetData_pid 0 3 = (3, 0)
    ∧ (XUD_SetData_run 0 (3 :: List.replicate 3 0)).1
      = 3 :: (List.range 3).map (fun i => (0 + i) % 2) :=
  XUD_SetData_toggle_law 0 3 3 (by norm_num) (by norm_num)

end XUD

namespace XUD

/-! ### Stall handling -/

/-- Bus tokens addressed to one endpoint. -/
inductive USB_Token
  | tkOut
  | tkIn
  | tkSetup
deriving DecidableEq, Repr

/-- An event concerning one endpoint: a bus token addressed to it, or an
explicit clear-stall call for its direction. -/
inductive EpEvent
  | token : USB_Token → EpEvent
  | clearStall
deriving DecidableEq, Repr

/-- The handshake the engine answers a token with (abstracted to whether it is
a STALL handshake or the normal non-stall handling). -/
inductive Handshake
  | hsNormal
  | hsStall
deriving DecidableEq, Repr

/-- Per-endpoint descriptor state relevant to stall and toggle handling. -/
structure EpState where
  toggle : Nat
  stalled : Bool
deriving DecidableEq, Repr

/-- Modelled from the spec: `XUD_SetStall_Out` / `XUD_SetStall_In` (declared
at xud.h lines 254-269) are implemented outside this repository snapshot;
the header notes the stall is cleared automatically if a SETUP is received on
the endpoint.  Marking an endpoint stalled sets the descriptor flag. -/
def XUD_SetStall (s : EpState) : EpState :=
  { s with stalled := true }

/-- Modelled from the spec: `XUD_ClearStall_Out` / `XUD_ClearStall_In`
(declared at xud.h lines 272-287), implemented outside this snapshot: marking
the endpoint as not stalled clears the descriptor flag. -/
def XUD_ClearStall (s : EpState) : EpState :=
  { s with stalled := false }

/-- Modelled from the spec: the transaction engine's handling of one endpoint
event (the engine loop is implemented outside this snapshot).  A stalled
endpoint answers every non-SETUP token with a STALL handshake and stays
stalled; a SETUP token is handled normally and auto-clears the stall; the
explicit clear-stall call clears the flag; no other event changes the flag. -/
def stallStep (s : EpState) : EpEvent → Option Handshake × EpState
  | .clearStall => (none, XUD_ClearStall s)
  | .token .tkSetup => (some .hsNormal, { s with stalled := false })
  | .token _ =>
      (some (if s.stalled then Handshake.hsStall else Handshake.hsNormal), s)

/-- The handshakes produced over a list of endpoint events, with the final
endpoint state. -/
def stallRun (s : EpState) : List EpEvent → List (Option Handshake) × EpState
  | [] => ([], s)
  | e :: es =>
      let r := stallStep s e
      let rest := stallRun r.2 es
      (r.1 :: rest.1, rest.2)

/-- While stalled, every event that is neither a clear-stall call nor a SETUP
token answers STALL (for tokens) and leaves the endpoint stalled. -/
theorem stallRun_stalled (evs : List EpEvent)
    (h : ∀ e ∈ evs, e ≠ EpEvent.clearStall ∧ e ≠ EpEvent.token USB_Token.tkSetup) :
    ∀ s : EpState, s.stalled = true →
      (∀ r ∈ (stallRun s evs).1, r = some Handshake.hsStall)
      ∧ (stallRun s evs).2.stalled = true := by
  induction evs with
  | nil =>
    intro s hs
    exact ⟨by intro r hr; simp [stallRun] at hr, hs⟩
  | cons e es ih =>
    intro s hs
    have he := h e (by simp)
    have hes : ∀ x ∈ es, x ≠ EpEvent.clearStall ∧ x ≠ EpEvent.token USB_Token.tkSetup := by
      intro x hx
      exact h x (by simp [hx])
    have hstep : stallStep s e = (some Handshake.hsStall, s) := by
      match e with
      | .clearStall => exact absurd rfl he.1
      | .token .tkSetup => exact absurd rfl he.2
      | .token .tkOut => simp [stallStep, hs]
      | .token .tkIn => simp [stallStep, hs]
    have hrest := ih hes s hs
    constructor
    · intro r hr
      show r = some Handshake.hsStall
      have : (stallRun s (e :: es)).1
          = (stallStep s e).1 :: (stallRun (stallStep s e).2 es).1 := rfl
      rw [this, hstep] at hr
      simp at hr
      rcases hr with hr | hr
      · exact hr
      · exact hrest.1 r hr
    · show (stallRun (stallStep s e).2 es).2.stalled = true
      rw [hstep]
      exact hrest.2

/-- C4: after a set-stall on an endpoint, every subsequent token receives a
STALL handshake and the endpoint stays stalled as long as neither the
clear-stall call is made nor a SETUP token targets the endpoint; each of those
two events, and only those, clears the stall. -/
theorem XUD_SetStall_stall_law (s : EpState) (evs : List EpEvent)
    (h : ∀ e ∈ evs, e ≠ EpEvent.clearStall ∧ e ≠ EpEvent.token USB_Token.tkSetup) :
    (∀ r ∈ (stallRun (XUD_SetStall s) evs).1, r = some Handshake.hsStall)
    ∧ (stallRun (XUD_SetStall s) evs).2.stalled = true
    ∧ (stallStep (XUD_SetStall s) EpEvent.clearStall).2.stalled = false
    ∧ (stallStep (XUD_SetStall s) (EpEvent.token USB_Token.tkSetup)).2.stalled = false
    ∧ (∀ e, (stallStep (XUD_SetStall s) e).2.stalled = false →
        e = EpEvent.clearStall ∨ e = EpEvent.token USB_Token.tkSetup) := by
  have hrun := stallRun_stalled evs h (XUD_SetStall s) rfl
  refine ⟨hrun.1, hrun.2, rfl, rfl, ?_⟩
  intro e hcleared
  match e with
  | .clearStall => exact Or.inl rfl
  | .token .tkSetup => exact Or.inr rfl
  | .token .tkOut => simp [stallStep, XUD_SetStall] at hcleared
  | .token .tkIn => simp [stallStep, XUD_SetStall] at hcleared

/-- Witness for C4 with a stall set on a fresh endpoint followed by an OUT and
an IN token. -/
theorem XUD_SetStall_stall_law_witness :
    (∀ r ∈ (stallRun (XUD_SetStall ⟨0, false⟩)
        [EpEvent.token USB_Token.tkOut, EpEvent.token USB_Token.tkIn]).1,
      r = some Handshake.hsStall)
    ∧ (stallRun (XUD_SetStall ⟨0, false⟩)
        [EpEvent.token USB_Token.tkOut, EpEvent.token USB_Token.tkIn]).2.stalled = true
    ∧ (stallStep (XUD_SetStall ⟨0, false⟩) EpEvent.clearStall).2.stalled = false
    ∧ (stallStep (XUD_SetStall ⟨0, false⟩)
        (EpEvent.token USB_Token.tkSetup)).2.stalled = false
    ∧ (∀ e, (stallStep (XUD_SetStall ⟨0, false⟩) e).2.stalled = false →
        e = EpEvent.clearStall ∨ e = EpEvent.token USB_Token.tkSetup) :=
  XUD_SetStall_stall_law ⟨0, false⟩
    [EpEvent.token USB_Token.tkOut, EpEvent.token USB_Token.tkIn]
    (by decide)

end XUD

namespace XUD

/-! ### The setup fetch `XUD_GetSetupBuffer` and data-path results -/

/-- The result of a data-path get-style operation: a byte count on success or
the distinguished bus-reset indication. -/
inductive XUD_Result
  | bytes : Nat → XUD_Result
  | busReset
deriving DecidableEq, Repr

/-- Modelled from the spec: `XUD_GetSetupBuffer` (declared at xud.h lines
153-160, built on `XUD_GetSetupData`, lines 58-66) is implemented outside
this repository snapshot.  Following the spec, it fetches exactly the 8-byte
Setup packet, bypasses toggle checking, resets the toggle state of both the
associated OUT and IN endpoints to the known value 1 (a Setup also auto-clears
a stall), and its only non-success outcome is the bus-reset indication,
modelled by the `busResetPending` flag. -/
def XUD_GetSetupBuffer (busResetPending : Bool) (sOut sIn : EpState) :
    XUD_Result × EpState × EpState :=
  if busResetPending then (XUD_Result.busReset, sOut, sIn)
  else (XUD_Result.bytes 8,
        { sOut with toggle := 1, stalled := false },
        { sIn with toggle := 1, stalled := false })

/-- C5: whenever the setup fetch completes successfully it returns exactly 8
as the byte count and resets the toggle state of both associated endpoints to
the known value 1, independently of their previous toggle state (toggle
checking is bypassed); its only non-success outcome is the bus-reset
indication. -/
theorem XUD_GetSetupBuffer_spec (b : Bool) (sOut sIn tOut tIn : EpState) :
    ((XUD_GetSetupBuffer b sOut sIn).1 = XUD_Result.busReset
        ∧ b = true)
    ∨ ((XUD_GetSetupBuffer b sOut sIn).1 = XUD_Result.bytes 8
        ∧ (XUD_GetSetupBuffer b sOut sIn).2.1.toggle = 1
        ∧ (XUD_GetSetupBuffer b sOut sIn).2.2.toggle = 1
        ∧ (XUD_GetSetupBuffer b sOut sIn).1 = (XUD_GetSetupBuffer b tOut tIn).1) := by
  cases b with
  | true => exact Or.inl ⟨rfl, rfl⟩
  | false => exact Or.inr ⟨rfl, rfl, rfl, rfl⟩

/-- Modelled from the spec and the header: `XUD_SetData` returns 0 on
non-error and -1 on bus-reset (xud.h line 75). -/
def XUD_SetData_ret (busResetPending : Bool) : Int :=
  if busResetPending then -1 else 0

/-- Modelled from the spec: `XUD_GetBuffer` (declared at xud.h lines 141-150)
returns the number of bytes written on success, or the bus-reset indication. -/
def XUD_GetBuffer_ret (busResetPending : Bool) (datalength : Nat) : XUD_Result :=
  if busResetPending then XUD_Result.busReset else XUD_Result.bytes datalength

/-- Modelled from the spec: the status of the chunked setter
`XUD_SetBuffer_EpMax`: 0 on success, the bus-reset indication otherwise. -/
def XUD_SetBuffer_EpMax_ret (busResetPending : Bool) : Int :=
  if busResetPending then -1 else 0

/-- Modelled from the spec: the status of the control helper
`XUD_DoGetRequest`: 0 on success, the bus-reset indication otherwise. -/
def XUD_DoGetRequest_ret (busResetPending : Bool) : Int :=
  if busResetPending then -1 else 0

/-- Modelled from the spec: `XUD_ResetEndpoint` (declared at xud.h lines
232-243) returns the negotiated speed, `XUD_SPEED_HS` or `XUD_SPEED_FS`. -/
def XUD_ResetEndpoint_ret (hostAcceptsHighSpeed : Bool) : Nat :=
  if hostAcceptsHighSpeed then XUD_SPEED_HS else XUD_SPEED_FS

/-- C6: every data-path operation returns either its success value (a byte
count, a negotiated speed, or 0 meaning Ok) or the single distinguished
bus-reset indication (-1 for `XUD_SetData` and the helpers); there is no
other error value in any data-path result. -/
theorem XUD_dataPath_result_taxonomy (b hs : Bool) (n : Nat) (sOut sIn : EpState) :
    (XUD_SetData_ret b = 0 ∨ XUD_SetData_ret b = -1)
    ∧ (XUD_GetBuffer_ret b n = XUD_Result.bytes n
        ∨ XUD_GetBuffer_ret b n = XUD_Result.busReset)
    ∧ ((XUD_GetSetupBuffer b sOut sIn).1 = XUD_Result.bytes 8
        ∨ (XUD_GetSetupBuffer b sOut sIn).1 = XUD_Result.busReset)
    ∧ (XUD_SetBuffer_EpMax_ret b = 0 ∨ XUD_SetBuffer_EpMax_ret b = -1)
    ∧ (XUD_DoGetRequest_ret b = 0 ∨ XUD_DoGetRequest_ret b = -1)
    ∧ (XUD_ResetEndpoint_ret hs = XUD_SPEED_HS
        ∨ XUD_ResetEndpoint_ret hs = XUD_SPEED_FS) := by
  cases b <;> cases hs <;>
    exact ⟨by simp [XUD_SetData_ret],
      by simp [XUD_GetBuffer_ret],
      by simp [XUD_GetSetupBuffer],
      by simp [XUD_SetBuffer_EpMax_ret],
      by simp [XUD_DoGetRequest_ret],
      by simp [XUD_ResetEndpoint_ret]⟩

end XUD
